import Mathlib

/-!
Verification of the first-aid supply ledger and status-derivation engine of
`rescue-readiness-tracker/pages/1_First-Aid_Supplies.py`.

The page operates on three worksheets: `first_aid_supplies` (one row per
physical lot), `first_aid_operational_limits` (min/max stock per
inventory/location/item key) and `first_aid_audits` (audit trail).  The
embedding below models those rows and the pure data transformations the page
performs on them: `get_operational_limits`, `get_alert_df` / `get_status`,
the table sort in `display_inventory`, `mark_removed` and `submit_audit`.
Dates are modelled as day numbers (`Nat`); an unknown/blank expiration date
(pandas `NaT`) is `none`.  Pandas integer columns are `Int`, counts are `Nat`.
-/

/-- One row of the `first_aid_supplies` worksheet: one physical lot.
`expirationDate` is `none` when the cell is blank (pandas `NaT`);
`dateRemoved = none` means the lot is active. -/
structure SupplyRow where
  inventory : String
  location : String
  item : String
  expirationDate : Option Nat
  dateAdded : Nat
  addedBy : String
  dateRemoved : Option Nat
  removedBy : Option String
deriving DecidableEq

/-- One raw row of the `first_aid_operational_limits` worksheet, before
`get_operational_limits` post-processing.  `maxQuantity = none` models a blank
`Max. Quantity` cell (pandas `NaN`). -/
structure LimitRow where
  inventory : String
  location : String
  item : String
  minQuantity : Int
  maxQuantity : Option Int
deriving DecidableEq

/-- A processed operational limit, as produced by `get_operational_limits`. -/
structure OperationalLimit where
  inventory : String
  location : String
  item : String
  minQuantity : Int
  maxQuantity : Int
deriving DecidableEq

/-- `get_operational_limits` (lines 99-107): casts `Min. Quantity` to int and
fills a blank `Max. Quantity` with `Min. Quantity * 10`. -/
def get_operational_limits (rows : List LimitRow) : List OperationalLimit :=
  rows.map (fun r =>
    { inventory := r.inventory
      location := r.location
      item := r.item
      minQuantity := r.minQuantity
      maxQuantity :=
        match r.maxQuantity with
        | none => r.minQuantity * 10
        | some m => m })

/-- A row of the summary dataframe built by `get_alert_df` (minus the derived
`Status` column, which `get_status` computes from the other columns). -/
structure SnapshotRow where
  inventory : String
  location : String
  item : String
  quantity : Nat
  quantityExpired : Nat
  quantityExpiring : Nat
  minQuantity : Int
  maxQuantity : Int
  quantityRemaining : Int
deriving DecidableEq

/-- `get_status` (lines 67-79): the six status rules, evaluated top to bottom,
first match wins. -/
def get_status (row : SnapshotRow) : String :=
  if row.quantityRemaining = 0 then "Out of Stock"
  else if row.quantityExpired > 0 then "Expired"
  else if row.quantityRemaining ≤ row.minQuantity then "Running Low"
  else if row.quantityExpiring > 0 then "Expiring"
  else if row.quantityRemaining < row.maxQuantity then "Understocked"
  else "Fully Stocked"

/-- A supply row is active (`Date Removed` blank) and belongs to the grouping
key `(Inventory, Location, Item)` used by `get_alert_df`. -/
def activeMatchesKey (inv loc item : String) (r : SupplyRow) : Bool :=
  r.dateRemoved == none && r.inventory == inv && r.location == loc && r.item == item

/-- Line 133: `Expired = Expiration Date < today`; a blank date (`NaT`)
compares false. -/
def isExpired (today : Nat) (r : SupplyRow) : Bool :=
  match r.expirationDate with
  | some d => decide (d < today)
  | none => false

/-- Line 134: `Expiring = (Expiration Date < today + 30D) & (Expiration Date > today)`;
a blank date (`NaT`) compares false. -/
def isExpiring (today : Nat) (r : SupplyRow) : Bool :=
  match r.expirationDate with
  | some d => decide (d < today + 30) && decide (today < d)
  | none => false

/-- The `quantity` aggregate of `get_alert_df`: number of active lots in the key. -/
def quantityTotal (inv loc item : String) (lots : List SupplyRow) : Nat :=
  (lots.filter (activeMatchesKey inv loc item)).length

/-- The `expired` aggregate of `get_alert_df`. -/
def quantityExpired (today : Nat) (inv loc item : String) (lots : List SupplyRow) : Nat :=
  (lots.filter (fun r => activeMatchesKey inv loc item r && isExpired today r)).length

/-- The `expiring` aggregate of `get_alert_df`. -/
def quantityExpiring (today : Nat) (inv loc item : String) (lots : List SupplyRow) : Nat :=
  (lots.filter (fun r => activeMatchesKey inv loc item r && isExpiring today r)).length

/-- `get_alert_df` (lines 122-153): groups active lots by
`(Inventory, Location, Item)`, then merges onto the operational-limits table
with `how="right"`.  The right merge produces exactly one row per limits row
(in limits order); counts for keys with no active lots are `fillna(0)`, and
lot groups whose key has no configured limit are dropped by the merge.
`Quantity Remaining = quantity - expired` (line 146). -/
def get_alert_df (today : Nat) (lots : List SupplyRow) (limits : List OperationalLimit) :
    List SnapshotRow :=
  limits.map (fun l =>
    { inventory := l.inventory
      location := l.location
      item := l.item
      quantity := quantityTotal l.inventory l.location l.item lots
      quantityExpired := quantityExpired today l.inventory l.location l.item lots
      quantityExpiring := quantityExpiring today l.inventory l.location l.item lots
      minQuantity := l.minQuantity
      maxQuantity := l.maxQuantity
      quantityRemaining :=
        (quantityTotal l.inventory l.location l.item lots : Int) -
          (quantityExpired today l.inventory l.location l.item lots : Int) })

/-- The default overview-table sort of `display_inventory` (line 194):
`summary_df.sort_values("Status", ascending=True)`.  `Status` is a plain
string column, so pandas sorts it lexicographically.  (pandas quicksort does
not fix the relative order of rows with equal status; insertion sort is one
order consistent with the comparison the code uses.) -/
def display_inventory_sort (rows : List SnapshotRow) : List SnapshotRow :=
  List.insertionSort (fun a b => get_status a ≤ get_status b) rows

/-- A supply row matches a removal group of `mark_removed` (lines 305-310):
same inventory, same item, same parsed expiration date, and still active.
A row with a blank expiration date matches nothing (`NaT == date` is false);
the location is not part of the match. -/
def rowMatches (inv item : String) (d : Nat) (r : SupplyRow) : Bool :=
  r.inventory == inv && r.item == item && r.expirationDate == some d &&
    r.dateRemoved == none

/-- Lines 311-312: set `Date Removed` and `Removed By` on a selected row. -/
def markRow (now : Nat) (sig : String) (r : SupplyRow) : SupplyRow :=
  { r with dateRemoved := some now, removedBy := some sig }

/-- One `mark_removed` loop iteration: `.head(quant)` selects the first
`quant` matching active rows in table order and marks them removed. -/
def markFirstMatching (inv item : String) (d : Nat) (quant : Nat) (now : Nat)
    (sig : String) : List SupplyRow → List SupplyRow
  | [] => []
  | r :: rest =>
    if 0 < quant && rowMatches inv item d r then
      markRow now sig r :: markFirstMatching inv item d (quant - 1) now sig rest
    else
      r :: markFirstMatching inv item d quant now sig rest

/-- The `(Item, Expiration Date)` pairs of a removal request that carry a
known expiration date.  A request row with a blank expiration date is dropped,
because `groupby(["Item", "Expiration Date"])` silently drops null keys. -/
def removalPairs (items : List String) (exps : List (Option Nat)) : List (String × Nat) :=
  (items.zip exps).filterMap (fun p => p.2.map (fun d => (p.1, d)))

/-- First-occurrence deduplication, used to enumerate the distinct group keys
of the request.  (pandas iterates groups in sorted key order; the per-group
updates below target disjoint row pools, so the group order does not affect
the final table.) -/
def dedupFirst {α : Type} [DecidableEq α] : List α → List α
  | [] => []
  | a :: rest => a :: (dedupFirst rest).filter (fun b => b ≠ a)

/-- The distinct removal group keys of a request. -/
def removalKeys (items : List String) (exps : List (Option Nat)) : List (String × Nat) :=
  dedupFirst (removalPairs items exps)

/-- The groups of `remove_df.groupby(["Item", "Expiration Date"]).size()`:
each distinct key with the number of request rows that carry it. -/
def removalGroups (items : List String) (exps : List (Option Nat)) :
    List ((String × Nat) × Nat) :=
  (removalKeys items exps).map (fun k => (k, (removalPairs items exps).count k))

/-- The group loop of `mark_removed` (lines 303-312). -/
def markGroups (inv : String) (now : Nat) (sig : String)
    (groups : List ((String × Nat) × Nat)) (t : List SupplyRow) : List SupplyRow :=
  groups.foldl (fun tbl g => markFirstMatching inv g.1.1 g.1.2 g.2 now sig tbl) t

/-- `mark_removed` (lines 295-315): reads the supplies table, groups the
removal request by `(Item, Expiration Date)`, and for each group marks the
first `count` matching active rows removed (`Date Removed = now`,
`Removed By = signature`), then writes the whole table back. -/
def mark_removed (inv : String) (items : List String) (exps : List (Option Nat))
    (signature : String) (now : Nat) (t : List SupplyRow) : List SupplyRow :=
  markGroups inv now signature (removalGroups items exps) t

/-- Number of active lots matching `(inv, item, d)` — the pool a removal
group draws from. -/
def countMatching (inv item : String) (d : Nat) (t : List SupplyRow) : Nat :=
  (t.filter (rowMatches inv item d)).length

/-- `conn.read`: returns the current full table (a snapshot). -/
def conn_read (store : List SupplyRow) : List SupplyRow := store

/-- `conn.update`: unconditionally replaces the whole worksheet with `data`.
The connector interface carries no version or snapshot token, so the current
store contents are ignored and the write never fails. -/
def conn_update (store : List SupplyRow) (data : List SupplyRow) : List SupplyRow :=
  data

/-- One checked row of an audit checklist (`st.data_editor` output):
the lot's item and expiration date, and the operator's presence decision. -/
structure AuditRow where
  item : String
  expirationDate : Option Nat
  present : Bool
deriving DecidableEq

/-- One row appended to the `first_aid_audits` worksheet by `submit_audit`. -/
structure AuditRecord where
  inventory : String
  location : String
  item : String
  expirationDate : Option Nat
  present : Bool
  dateAudited : Nat
  auditedBy : String
deriving DecidableEq

/-- Lines 410-414: the audit record built from one checked row. -/
def auditRecordOf (inv loc sig : String) (now : Nat) (r : AuditRow) : AuditRecord :=
  { inventory := inv
    location := loc
    item := r.item
    expirationDate := r.expirationDate
    present := r.present
    dateAudited := now
    auditedBy := sig }

/-- All checked rows of a per-location checklist map, in submission order. -/
def checkedRows (locAudits : List (String × List AuditRow)) : List AuditRow :=
  (locAudits.map Prod.snd).flatten

/-- Lines 417-419: the checked rows flagged `Present = False`, per location,
in submission order. -/
def missingRows (locAudits : List (String × List AuditRow)) : List AuditRow :=
  (locAudits.map (fun p => p.2.filter (fun r => !r.present))).flatten

/-- Number of `Present = False` checked rows naming `(item, d)`. -/
def missingCount (locAudits : List (String × List AuditRow)) (item : String) (d : Nat) : Nat :=
  ((missingRows locAudits).filter
    (fun r => r.item == item && r.expirationDate == some d)).length

/-- `submit_audit` (lines 404-425): appends one audit record per checked row
(per location, with `Date Audited = now` and `Audited By = signature`), and
feeds every `Present = False` row into `mark_removed` — the same removal path
the manual remove form uses — with one request row per missing lot. -/
def submit_audit (inv : String) (locAudits : List (String × List AuditRow))
    (signature : String) (now : Nat) (auditTable : List AuditRecord)
    (supplyTable : List SupplyRow) : List AuditRecord × List SupplyRow :=
  let newAudits :=
    locAudits.foldl (fun acc p => acc ++ p.2.map (auditRecordOf inv p.1 signature now))
      auditTable
  let items := (missingRows locAudits).map (fun r => r.item)
  let exps := (missingRows locAudits).map (fun r => r.expirationDate)
  (newAudits, mark_removed inv items exps signature now supplyTable)


/-! ### Concrete fixtures -/

/-- The spec's worked example row: min=2, max=10, 3 active lots of which 1 is
expired, so `Quantity Remaining = 2`. -/
def exampleRowC1 : SnapshotRow := ⟨"Stockroom", "ShelfA", "Bandages", 3, 1, 0, 2, 10, 2⟩

/-- A row with nothing remaining. -/
def rowC1a : SnapshotRow := ⟨"Stockroom", "ShelfA", "Bandages", 0, 0, 0, 2, 10, 0⟩

/-- A row with remaining stock below the minimum and nothing expired. -/
def rowC1c : SnapshotRow := ⟨"Stockroom", "ShelfA", "Bandages", 2, 0, 0, 2, 10, 2⟩

/-- A row above the minimum with a lot expiring soon. -/
def rowC1d : SnapshotRow := ⟨"Stockroom", "ShelfA", "Bandages", 3, 0, 1, 2, 10, 3⟩

/-- A row above the minimum but below the maximum. -/
def rowC1e : SnapshotRow := ⟨"Stockroom", "ShelfA", "Bandages", 5, 0, 0, 2, 10, 5⟩

/-- A row at the maximum. -/
def rowC1f : SnapshotRow := ⟨"Stockroom", "ShelfA", "Bandages", 10, 0, 0, 2, 10, 10⟩

/-- An active lot expiring in January (day 31). -/
def lotJanC2 : SupplyRow := ⟨"Kit", "Top", "Bandage", some 31, 0, "op", none, none⟩

/-- An active lot expiring in March (day 90). -/
def lotMarC2 : SupplyRow := ⟨"Kit", "Top", "Bandage", some 90, 0, "op", none, none⟩

/-- An active lot expiring in February (day 59). -/
def lotFebC2 : SupplyRow := ⟨"Kit", "Top", "Bandage", some 59, 0, "op", none, none⟩

/-- An active Bandage lot in the shared store. -/
def lotBandageC3 : SupplyRow := ⟨"Kit", "Top", "Bandage", some 50, 0, "op", none, none⟩

/-- An active Gauze lot in the shared store. -/
def lotGauzeC3 : SupplyRow := ⟨"Kit", "Top", "Gauze", some 60, 0, "op", none, none⟩

/-- The only active lot matching the C4 removal request. -/
def lotOnlyC4 : SupplyRow := ⟨"Kit", "Top", "Bandage", some 50, 0, "op", none, none⟩

/-! ### Claim theorems -/

/-- C1 (counterexample): for the spec's own example — min=2, max=10, 3 active
lots of which 1 expired, hence `Quantity Remaining = 2` — `get_status` returns
"Expired" (rule 2 fires before rule 3), not "Running Low" as the claim states. -/
theorem C1_example_counterexample :
    get_status exampleRowC1 = "Expired" ∧ get_status exampleRowC1 ≠ "Running Low" := by
  decide

/-- C1 (amended): `get_status` evaluates the six rules in fixed priority
order with first match winning: remaining = 0 gives "Out of Stock", else
expired > 0 gives "Expired", else remaining ≤ min gives "Running Low", else
expiring > 0 gives "Expiring", else remaining < max gives "Understocked",
else "Fully Stocked".  In particular, for min=2, max=10, 3 active lots of
which 1 expired, the status is "Expired" (rule 2 precedes rule 3). -/
theorem C1_status_priority_rules (row : SnapshotRow) :
    (row.quantityRemaining = 0 → get_status row = "Out of Stock") ∧
    (row.quantityRemaining ≠ 0 → 0 < row.quantityExpired →
      get_status row = "Expired") ∧
    (row.quantityRemaining ≠ 0 → row.quantityExpired = 0 →
      row.quantityRemaining ≤ row.minQuantity → get_status row = "Running Low") ∧
    (row.quantityRemaining ≠ 0 → row.quantityExpired = 0 →
      row.minQuantity < row.quantityRemaining → 0 < row.quantityExpiring →
      get_status row = "Expiring") ∧
    (row.quantityRemaining ≠ 0 → row.quantityExpired = 0 →
      row.minQuantity < row.quantityRemaining → row.quantityExpiring = 0 →
      row.quantityRemaining < row.maxQuantity → get_status row = "Understocked") ∧
    (row.quantityRemaining ≠ 0 → row.quantityExpired = 0 →
      row.minQuantity < row.quantityRemaining → row.quantityExpiring = 0 →
      row.maxQuantity ≤ row.quantityRemaining → get_status row = "Fully Stocked") ∧
    get_status exampleRowC1 = "Expired" := by
  refine ⟨fun h0 => ?_, fun h0 h1 => ?_, fun h0 h1 h2 => ?_, fun h0 h1 h2 h3 => ?_,
    fun h0 h1 h2 h3 h4 => ?_, fun h0 h1 h2 h3 h4 => ?_, by decide⟩
  · simp [get_status, h0]
  · simp [get_status, h0, h1]
  · simp [get_status, h0, h1, h2]
  · simp [get_status, h0, h1, not_le.mpr h2, h3]
  · simp [get_status, h0, h1, not_le.mpr h2, h3, h4]
  · simp [get_status, h0, h1, not_le.mpr h2, h3, not_lt.mpr h4]

/-- C1 (witness): each of the six rules fires on a concrete row. -/
theorem C1_status_priority_rules_witness :
    get_status rowC1a = "Out of Stock" ∧ get_status exampleRowC1 = "Expired" ∧
    get_status rowC1c = "Running Low" ∧ get_status rowC1d = "Expiring" ∧
    get_status rowC1e = "Understocked" ∧ get_status rowC1f = "Fully Stocked" :=
  ⟨(C1_status_priority_rules rowC1a).1 (by decide),
   (C1_status_priority_rules exampleRowC1).2.1 (by decide) (by decide),
   (C1_status_priority_rules rowC1c).2.2.1 (by decide) (by decide) (by decide),
   (C1_status_priority_rules rowC1d).2.2.2.1 (by decide) (by decide) (by decide) (by decide),
   (C1_status_priority_rules rowC1e).2.2.2.2.1 (by decide) (by decide) (by decide)
     (by decide) (by decide),
   (C1_status_priority_rules rowC1f).2.2.2.2.2.1 (by decide) (by decide) (by decide)
     (by decide) (by decide)⟩

/-- C2: a removal request whose expiration date is omitted removes nothing at
all: `mark_removed` groups request rows by `(Item, Expiration Date)` and the
groupby silently drops null keys, so with active lots expiring on days
31 (Jan), 90 (Mar) and 59 (Feb) and a two-unit request carrying no expiration
date, the table is returned unchanged — the soonest-expiring (Jan, Feb) lots
are not marked removed as the claim requires. -/
theorem C2_omitted_expiration_removes_nothing :
    mark_removed "Kit" ["Bandage", "Bandage"] [none, none] "op" 200
        [lotJanC2, lotMarC2, lotFebC2] = [lotJanC2, lotMarC2, lotFebC2] ∧
    lotJanC2.dateRemoved = none ∧ lotFebC2.dateRemoved = none := by
  decide

/-- C3: the write path carries no version/snapshot token: `conn_update`
unconditionally replaces the whole worksheet and never fails.  Concretely,
operator A removes the Bandage lot; operator B, whose read preceded A's
write, then removes the Gauze lot from the same stale snapshot; B's write
succeeds and silently discards A's change — in the final store the Bandage
lot is active again, and no ConcurrentModification failure exists. -/
theorem C3_unconditional_overwrite_loses_update :
    (∀ store data : List SupplyRow, conn_update store data = data) ∧
    conn_update [lotBandageC3, lotGauzeC3]
        (mark_removed "Kit" ["Bandage"] [some 50] "opA" 100
          (conn_read [lotBandageC3, lotGauzeC3]))
      = [markRow 100 "opA" lotBandageC3, lotGauzeC3] ∧
    conn_update
        (conn_update [lotBandageC3, lotGauzeC3]
          (mark_removed "Kit" ["Bandage"] [some 50] "opA" 100
            (conn_read [lotBandageC3, lotGauzeC3])))
        (mark_removed "Kit" ["Gauze"] [some 60] "opB" 101
          (conn_read [lotBandageC3, lotGauzeC3]))
      = [lotBandageC3, markRow 101 "opB" lotGauzeC3] :=
  ⟨fun _ _ => rfl, by decide, by decide⟩

/-- C4: when the pool of active lots matching `(inventory, item, expiration)`
is smaller than the requested quantity, `mark_removed` does not fail with
InsufficientStock and does not leave the ledger unchanged: `.head(quant)`
silently takes what is there.  Concretely, a two-unit request against a
one-lot pool marks that single lot removed and reports no error. -/
theorem C4_insufficient_pool_partial_removal :
    countMatching "Kit" "Bandage" 50 [lotOnlyC4] = 1 ∧
    mark_removed "Kit" ["Bandage", "Bandage"] [some 50, some 50] "op" 100 [lotOnlyC4]
      = [markRow 100 "op" lotOnlyC4] := by
  decide

/-- C10: `get_operational_limits` gives every row whose `Max. Quantity` cell
is blank a maximum of 10 times its `Min. Quantity`, and keeps a configured
`Max. Quantity` unchanged; all other fields are copied. -/
theorem C10_blank_max_defaults_to_ten_times_min (rows : List LimitRow) (i : Nat)
    (r : LimitRow) (h : rows[i]? = some r) :
    (get_operational_limits rows)[i]? = some
      ⟨r.inventory, r.location, r.item, r.minQuantity,
        match r.maxQuantity with
        | none => 10 * r.minQuantity
        | some m => m⟩ := by
  simp only [get_operational_limits, List.getElem?_map, h, Option.map_some]
  cases hm : r.maxQuantity <;> simp [hm, mul_comm]

/-- C10 (witness): a blank-max row gets max `10 * 3 = 30`; a configured row
keeps max `7`. -/
theorem C10_blank_max_defaults_witness :
    (get_operational_limits [⟨"Kit", "Top", "Bandage", 3, none⟩,
        ⟨"Kit", "Top", "Gauze", 3, some 7⟩])[0]?
      = some ⟨"Kit", "Top", "Bandage", 3, 10 * 3⟩ ∧
    (get_operational_limits [⟨"Kit", "Top", "Bandage", 3, none⟩,
        ⟨"Kit", "Top", "Gauze", 3, some 7⟩])[1]?
      = some ⟨"Kit", "Top", "Gauze", 3, 7⟩ :=
  ⟨C10_blank_max_defaults_to_ten_times_min _ 0 ⟨"Kit", "Top", "Bandage", 3, none⟩ rfl,
   C10_blank_max_defaults_to_ten_times_min _ 1 ⟨"Kit", "Top", "Gauze", 3, some 7⟩ rfl⟩

/-- An active lot whose expiration date is exactly `today = 100`. -/
def lotTodayC6 : SupplyRow := ⟨"Kit", "Top", "Bandage", some 100, 0, "op", none, none⟩

/-- An active lot expired one day before `today = 100`. -/
def lotExpiredC6 : SupplyRow := ⟨"Kit", "Top", "Bandage", some 99, 0, "op", none, none⟩

/-- The operational limit configured for the C6 witness key. -/
def limitC6 : OperationalLimit := ⟨"Kit", "Top", "Bandage", 2, 10⟩

/-- C6 (counterexample): a lot expiring exactly at `now` satisfies the
claim's expiring window `now ≤ d < now + 30`, yet the code's strict
`Expiration Date > today` comparison counts it neither as expiring nor as
expired. -/
theorem C6_boundary_counterexample :
    (100 ≤ 100 ∧ 100 < 100 + 30) ∧ isExpiring 100 lotTodayC6 = false ∧
    isExpired 100 lotTodayC6 = false := by
  decide

/-- C6 (amended): an active lot with known expiration date `d` is counted
expired iff `d < now` and expiring iff `now < d < now + 30` — both bounds of
the expiring window are strict, so a lot expiring exactly at `now` counts as
neither — the two categories are mutually exclusive, and every snapshot row
satisfies `Quantity Remaining = Quantity - Quantity Expired`. -/
theorem C6_expiry_boundaries (now d : Nat) (r : SupplyRow)
    (h : r.expirationDate = some d) (today : Nat) (lots : List SupplyRow)
    (limits : List OperationalLimit) (row : SnapshotRow)
    (hrow : row ∈ get_alert_df today lots limits) :
    (isExpired now r = true ↔ d < now) ∧
    (isExpiring now r = true ↔ now < d ∧ d < now + 30) ∧
    ¬(isExpired now r = true ∧ isExpiring now r = true) ∧
    row.quantityRemaining = (row.quantity : Int) - (row.quantityExpired : Int) := by
  refine ⟨?_, ?_, ?_, ?_⟩
  · simp [isExpired, h]
  · simp only [isExpiring, h, Bool.and_eq_true, decide_eq_true_eq]
    omega
  · simp only [isExpired, isExpiring, h, Bool.and_eq_true, decide_eq_true_eq]
    omega
  · simp only [get_alert_df, List.mem_map] at hrow
    obtain ⟨l, _, rfl⟩ := hrow
    rfl

/-- C6 (witness): the boundary characterization applied to a lot expired one
day before `today = 100`, inside a one-lot snapshot. -/
theorem C6_expiry_boundaries_witness :
    (isExpired 100 lotExpiredC6 = true ↔ 99 < 100) ∧
    (isExpiring 100 lotExpiredC6 = true ↔ 100 < 99 ∧ 99 < 100 + 30) ∧
    ¬(isExpired 100 lotExpiredC6 = true ∧ isExpiring 100 lotExpiredC6 = true) ∧
    (⟨"Kit", "Top", "Bandage", 1, 1, 0, 2, 10, 0⟩ : SnapshotRow).quantityRemaining
      = ((⟨"Kit", "Top", "Bandage", 1, 1, 0, 2, 10, 0⟩ : SnapshotRow).quantity : Int)
        - ((⟨"Kit", "Top", "Bandage", 1, 1, 0, 2, 10, 0⟩ : SnapshotRow).quantityExpired : Int) :=
  C6_expiry_boundaries 100 99 lotExpiredC6 rfl 100 [lotExpiredC6] [limitC6]
    ⟨"Kit", "Top", "Bandage", 1, 1, 0, 2, 10, 0⟩ (by decide)

/-- An active lot whose key has no configured operational limit. -/
def lotC7 : SupplyRow := ⟨"Stockroom", "ShelfA", "Gauze", some 500, 0, "op", none, none⟩

/-- C7 (counterexample): a key with an active lot but no configured
operational limit is dropped from the snapshot entirely: with one active
Gauze lot and an empty limits table, `get_alert_df` returns no rows, instead
of keeping the key as a data-quality warning. -/
theorem C7_unconfigured_key_dropped :
    lotC7.dateRemoved = none ∧ get_alert_df 100 [lotC7] [] = [] := by
  decide

/-- C7 (amended): the snapshot has exactly one row per configured limits row,
in limits order; a key present in limits with no matching active lots appears
with all counts zero; and every snapshot row's key comes from the limits
table — keys with active lots but no configured limit are dropped by the
`how="right"` merge rather than kept as a warning row. -/
theorem C7_snapshot_rows (today : Nat) (lots : List SupplyRow)
    (limits : List OperationalLimit) (i : Nat) (l : OperationalLimit)
    (h : limits[i]? = some l)
    (hno : ∀ r ∈ lots, activeMatchesKey l.inventory l.location l.item r = false) :
    (get_alert_df today lots limits).length = limits.length ∧
    (get_alert_df today lots limits)[i]? = some
      ⟨l.inventory, l.location, l.item, 0, 0, 0, l.minQuantity, l.maxQuantity, 0⟩ ∧
    (get_alert_df today lots limits).all (fun row =>
      limits.any (fun l2 => row.inventory == l2.inventory &&
        row.location == l2.location && row.item == l2.item)) = true := by
  have hfilter : lots.filter (activeMatchesKey l.inventory l.location l.item) = [] :=
    List.filter_eq_nil_iff.mpr (by intro r hr; simp [hno r hr])
  refine ⟨by simp [get_alert_df], ?_, ?_⟩
  · have h0 : quantityTotal l.inventory l.location l.item lots = 0 := by
      simp [quantityTotal, hfilter]
    have h1 : quantityExpired today l.inventory l.location l.item lots = 0 := by
      simp only [quantityExpired, List.length_eq_zero]
      refine List.filter_eq_nil_iff.mpr ?_
      intro r hr
      simp [hno r hr]
    have h2 : quantityExpiring today l.inventory l.location l.item lots = 0 := by
      simp only [quantityExpiring, List.length_eq_zero]
      refine List.filter_eq_nil_iff.mpr ?_
      intro r hr
      simp [hno r hr]
    simp [get_alert_df, List.getElem?_map, h, h0, h1, h2]
  · rw [List.all_eq_true]
    intro row hrow
    simp only [get_alert_df, List.mem_map] at hrow
    obtain ⟨l2, hl2, rfl⟩ := hrow
    rw [List.any_eq_true]
    exact ⟨l2, hl2, by simp⟩

/-- The operational limit used by the C7 witness (its key has no lots). -/
def limitC7 : OperationalLimit := ⟨"Stockroom", "ShelfB", "Tape", 2, 10⟩

/-- C7 (witness): with one active Gauze lot and a single configured limit for
a different key, the snapshot consists of exactly the zero-count row for the
configured key. -/
theorem C7_snapshot_rows_witness :
    (get_alert_df 100 [lotC7] [limitC7]).length = [limitC7].length ∧
    (get_alert_df 100 [lotC7] [limitC7])[0]? = some
      ⟨limitC7.inventory, limitC7.location, limitC7.item, 0, 0, 0,
        limitC7.minQuantity, limitC7.maxQuantity, 0⟩ ∧
    (get_alert_df 100 [lotC7] [limitC7]).all (fun row =>
      [limitC7].any (fun l2 => row.inventory == l2.inventory &&
        row.location == l2.location && row.item == l2.item)) = true :=
  C7_snapshot_rows 100 [lotC7] [limitC7] 0 limitC7 rfl (by decide)

/-- An out-of-stock snapshot row. -/
def rowOutC8 : SnapshotRow := ⟨"Stockroom", "ShelfA", "Tape", 0, 0, 0, 2, 10, 0⟩

/-- An expired snapshot row. -/
def rowExpC8 : SnapshotRow := ⟨"Stockroom", "ShelfB", "Wipes", 3, 1, 0, 2, 10, 2⟩

/-- C8 (counterexample): the default overview sort orders by the plain status
string, so "Expired" sorts before "Out of Stock": with one out-of-stock row
and one expired row, the sorted table does not start with the out-of-stock
row demanded by the severity ranking. -/
theorem C8_sort_counterexample :
    get_status rowOutC8 = "Out of Stock" ∧ get_status rowExpC8 = "Expired" ∧
    (display_inventory_sort [rowOutC8, rowExpC8]).map get_status
      = ["Expired", "Out of Stock"] := by
  refine ⟨by decide, by decide, ?_⟩
  simp [display_inventory_sort, List.insertionSort, List.orderedInsert, get_status]
  decide

/-- Comparison by status string is total. -/
instance : IsTotal SnapshotRow (fun a b => get_status a ≤ get_status b) :=
  ⟨fun a b => le_total (get_status a) (get_status b)⟩

/-- Comparison by status string is transitive. -/
instance : IsTrans SnapshotRow (fun a b => get_status a ≤ get_status b) :=
  ⟨fun _ _ _ h1 h2 => le_trans h1 h2⟩

/-- C8 (amended): `display_inventory`'s default sort orders the snapshot rows
ascending by the alphabetical (lexicographic) order of the status names —
"Expired" < "Expiring" < "Fully Stocked" < "Out of Stock" < "Running Low" <
"Understocked" — not by severity rank; the output is a permutation of the
input sorted in that string order. -/
theorem C8_sort_alphabetical_not_severity (rows : List SnapshotRow) :
    List.Sorted (fun a b => get_status a ≤ get_status b) (display_inventory_sort rows) ∧
    (display_inventory_sort rows).Perm rows ∧
    (("Expired" : String) < "Expiring" ∧ ("Expiring" : String) < "Fully Stocked" ∧
      ("Fully Stocked" : String) < "Out of Stock" ∧
      ("Out of Stock" : String) < "Running Low" ∧
      ("Running Low" : String) < "Understocked") := by
  refine ⟨List.sorted_insertionSort _ rows, List.perm_insertionSort _ rows, ?_⟩
  refine ⟨?_, ?_, ?_, ?_, ?_⟩ <;> simp <;> decide

/-! ### Helper lemmas about `mark_removed` -/

/-- A marked row no longer matches any removal group (it is no longer active). -/
theorem rowMatches_markRow (inv item : String) (d now : Nat) (sig : String)
    (r : SupplyRow) : rowMatches inv item d (markRow now sig r) = false := by
  simp [rowMatches, markRow]

/-- A matching row is active. -/
theorem rowMatches_active {inv item : String} {d : Nat} {r : SupplyRow}
    (h : rowMatches inv item d r = true) : r.dateRemoved = none := by
  simp only [rowMatches, Bool.and_eq_true, beq_iff_eq] at h
  exact h.2

/-- A row matching one removal key matches no other removal key. -/
theorem rowMatches_ne_false {inv item : String} {d : Nat} {inv2 item2 : String}
    {d2 : Nat} (r : SupplyRow) (hne : ¬(inv2 = inv ∧ item2 = item ∧ d2 = d))
    (h : rowMatches inv item d r = true) : rowMatches inv2 item2 d2 r = false := by
  cases hb : rowMatches inv2 item2 d2 r with
  | false => rfl
  | true =>
    exfalso
    simp only [rowMatches, Bool.and_eq_true, beq_iff_eq] at h hb
    exact hne ⟨hb.1.1.1.symm.trans h.1.1.1, hb.1.1.2.symm.trans h.1.1.2,
      Option.some.inj (hb.1.2.symm.trans h.1.2)⟩

/-- Unfolding `countMatching` over a cons cell. -/
theorem countMatching_cons (inv item : String) (d : Nat) (r : SupplyRow)
    (t : List SupplyRow) :
    countMatching inv item d (r :: t)
      = (if rowMatches inv item d r = true then 1 else 0) + countMatching inv item d t := by
  simp only [countMatching, List.filter_cons]
  split
  · simp [Nat.add_comm]
  · simp

/-- `markFirstMatching` never deletes or inserts rows. -/
theorem length_markFirstMatching (inv item : String) (d quant now : Nat) (sig : String)
    (t : List SupplyRow) :
    (markFirstMatching inv item d quant now sig t).length = t.length := by
  induction t generalizing quant with
  | nil => rfl
  | cons r rest ih =>
    simp only [markFirstMatching]
    split
    · simp [ih]
    · simp [ih]

/-- Reducing `if (false = true)` in count expressions. -/
theorem ite_of_false_cond : (if (false = true) then (1 : Nat) else 0) = 0 := rfl

/-- When the pool is large enough, one `mark_removed` group iteration removes
exactly `quant` lots from its own pool. -/
theorem countMatching_markFirstMatching_of_le (inv item : String) (d : Nat)
    (quant now : Nat) (sig : String) (t : List SupplyRow)
    (hq : quant ≤ countMatching inv item d t) :
    countMatching inv item d (markFirstMatching inv item d quant now sig t)
      = countMatching inv item d t - quant := by
  induction t generalizing quant with
  | nil =>
    simp only [markFirstMatching]
    simp only [countMatching, List.filter_nil, List.length_nil] at hq ⊢
    omega
  | cons r rest ih =>
    rw [countMatching_cons] at hq
    simp only [markFirstMatching]
    by_cases hm : rowMatches inv item d r = true
    · rw [if_pos hm] at hq
      have e2 : countMatching inv item d (r :: rest)
          = 1 + countMatching inv item d rest := by
        rw [countMatching_cons, if_pos hm]
      by_cases h0 : 0 < quant
      · rw [if_pos (by simp [hm, h0])]
        have e1 : countMatching inv item d
            (markRow now sig r :: markFirstMatching inv item d (quant - 1) now sig rest)
            = countMatching inv item d (markFirstMatching inv item d (quant - 1) now sig rest) := by
          rw [countMatching_cons, rowMatches_markRow, ite_of_false_cond]
          omega
        rw [e1, e2, ih (quant - 1) (by omega)]
        omega
      · rw [if_neg (by simp [h0])]
        have e1 : countMatching inv item d
            (r :: markFirstMatching inv item d quant now sig rest)
            = 1 + countMatching inv item d (markFirstMatching inv item d quant now sig rest) := by
          rw [countMatching_cons, if_pos hm]
        rw [e1, e2, ih quant (by omega)]
        omega
    · rw [if_neg (by simp [hm])]
      rw [if_neg hm] at hq
      have e1 : countMatching inv item d (r :: markFirstMatching inv item d quant now sig rest)
          = countMatching inv item d (markFirstMatching inv item d quant now sig rest) := by
        rw [countMatching_cons, if_neg hm]
        omega
      have e2 : countMatching inv item d (r :: rest) = countMatching inv item d rest := by
        rw [countMatching_cons, if_neg hm]
        omega
      rw [e1, e2, ih quant (by omega)]

/-- A `mark_removed` group iteration leaves the pools of all other keys
untouched. -/
theorem countMatching_markFirstMatching_ne (inv item : String) (d : Nat)
    (inv2 item2 : String) (d2 : Nat) (quant now : Nat) (sig : String)
    (t : List SupplyRow) (hne : ¬(inv2 = inv ∧ item2 = item ∧ d2 = d)) :
    countMatching inv2 item2 d2 (markFirstMatching inv item d quant now sig t)
      = countMatching inv2 item2 d2 t := by
  induction t generalizing quant with
  | nil => rfl
  | cons r rest ih =>
    simp only [markFirstMatching]
    split
    · rename_i hguard
      have hm : rowMatches inv item d r = true := by
        simp only [Bool.and_eq_true] at hguard
        exact hguard.2
      rw [countMatching_cons, countMatching_cons, rowMatches_markRow,
        rowMatches_ne_false r hne hm]
      simp [ih]
    · rw [countMatching_cons, countMatching_cons]
      simp [ih]

/-- Total quantity requested for key `k` across a list of removal groups. -/
def groupCount (groups : List ((String × Nat) × Nat)) (k : String × Nat) : Nat :=
  ((groups.filter (fun g => g.1 == k)).map Prod.snd).sum

/-- Unfolding `groupCount` over a cons cell. -/
theorem groupCount_cons (g : (String × Nat) × Nat) (groups : List ((String × Nat) × Nat))
    (k : String × Nat) :
    groupCount (g :: groups) k = (if g.1 = k then g.2 else 0) + groupCount groups k := by
  simp only [groupCount, List.filter_cons]
  split
  · rename_i hg
    simp only [beq_iff_eq] at hg
    simp [hg]
  · rename_i hg
    simp only [beq_iff_eq] at hg
    simp [hg]

/-- A key absent from all groups has total requested quantity zero. -/
theorem groupCount_eq_zero (groups : List ((String × Nat) × Nat)) (k : String × Nat)
    (h : k ∉ groups.map Prod.fst) : groupCount groups k = 0 := by
  induction groups with
  | nil => rfl
  | cons g gs ih =>
    simp only [List.map_cons, List.mem_cons, not_or] at h
    rw [groupCount_cons, if_neg (fun he => h.1 he.symm), ih h.2]

/-- The pool of any key after running all removal groups, provided each group
requests no more than its own pool and the group keys are distinct: each key
loses exactly the quantity requested for it. -/
theorem countMatching_markGroups (inv : String) (now : Nat) (sig : String)
    (groups : List ((String × Nat) × Nat)) (t : List SupplyRow)
    (hnd : (groups.map Prod.fst).Nodup)
    (hb : ∀ g ∈ groups, g.2 ≤ countMatching inv g.1.1 g.1.2 t)
    (item : String) (d : Nat) :
    countMatching inv item d (markGroups inv now sig groups t)
      = countMatching inv item d t - groupCount groups (item, d) := by
  induction groups generalizing t with
  | nil => simp [markGroups, groupCount]
  | cons g gs ih =>
    simp only [markGroups, List.foldl_cons]
    rw [List.map_cons] at hnd
    have hnd2 := List.nodup_cons.mp hnd
    have hgb : g.2 ≤ countMatching inv g.1.1 g.1.2 t := hb g (List.mem_cons_self g gs)
    have hpool : ∀ g2 ∈ gs, g2.2 ≤ countMatching inv g2.1.1 g2.1.2
        (markFirstMatching inv g.1.1 g.1.2 g.2 now sig t) := by
      intro g2 hg2
      have hne : ¬(g2.1.1 = g.1.1 ∧ g2.1.2 = g.1.2) := by
        intro ⟨h1, h2⟩
        exact hnd2.1 (by
          have hfst : g.1 = g2.1 := Prod.ext_iff.mpr ⟨h1.symm, h2.symm⟩
          rw [hfst]
          exact List.mem_map_of_mem Prod.fst hg2)
      rw [countMatching_markFirstMatching_ne inv g.1.1 g.1.2 inv g2.1.1 g2.1.2 _ now sig t
        (fun hc => hne ⟨hc.2.1, hc.2.2⟩)]
      exact hb g2 (List.mem_cons_of_mem g hg2)
    rw [show (gs.foldl (fun tbl g2 => markFirstMatching inv g2.1.1 g2.1.2 g2.2 now sig tbl)
        (markFirstMatching inv g.1.1 g.1.2 g.2 now sig t))
      = markGroups inv now sig gs (markFirstMatching inv g.1.1 g.1.2 g.2 now sig t) from rfl]
    rw [ih _ hnd2.2 hpool]
    rw [groupCount_cons]
    by_cases hk : g.1 = (item, d)
    · have hitem : item = g.1.1 := by rw [hk]
      have hd : d = g.1.2 := by rw [hk]
      rw [if_pos hk]
      rw [hitem, hd,
        countMatching_markFirstMatching_of_le inv g.1.1 g.1.2 g.2 now sig t hgb]
      have hz : groupCount gs (g.1.1, g.1.2) = 0 := by
        refine groupCount_eq_zero gs _ ?_
        intro hmem
        exact hnd2.1 (by simpa using hmem)
      rw [hz]
      omega
    · have hne2 : ¬(inv = inv ∧ item = g.1.1 ∧ d = g.1.2) := by
        intro ⟨_, h1, h2⟩
        exact hk (Prod.ext_iff.mpr ⟨h1.symm, h2.symm⟩)
      rw [countMatching_markFirstMatching_ne inv g.1.1 g.1.2 inv item d g.2 now sig t hne2]
      rw [if_neg hk]
      omega

/-- `dedupFirst` preserves membership. -/
theorem mem_dedupFirst {α : Type} [DecidableEq α] (a : α) (l : List α) :
    a ∈ dedupFirst l ↔ a ∈ l := by
  induction l with
  | nil => simp [dedupFirst]
  | cons b rest ih =>
    simp only [dedupFirst, List.mem_cons, List.mem_filter, decide_eq_true_eq]
    constructor
    · rintro (rfl | ⟨hmem, _⟩)
      · exact Or.inl rfl
      · exact Or.inr (ih.mp hmem)
    · rintro (rfl | hmem)
      · exact Or.inl rfl
      · by_cases hab : a = b
        · exact Or.inl hab
        · exact Or.inr ⟨ih.mpr hmem, hab⟩

/-- `dedupFirst` produces distinct elements. -/
theorem nodup_dedupFirst {α : Type} [DecidableEq α] (l : List α) :
    (dedupFirst l).Nodup := by
  induction l with
  | nil => simp [dedupFirst]
  | cons b rest ih =>
    simp only [dedupFirst]
    refine List.nodup_cons.mpr ⟨?_, ih.filter _⟩
    intro hmem
    have := (List.mem_filter.mp hmem).2
    simp at this

/-- The group keys of `removalGroups` are the deduplicated request keys. -/
theorem map_fst_removalGroups (items : List String) (exps : List (Option Nat)) :
    (removalGroups items exps).map Prod.fst = removalKeys items exps := by
  simp only [removalGroups, List.map_map]
  exact List.map_id'' (fun _ => rfl) _

/-- Requested quantity per key, for a list of per-key groups with distinct
keys, keyed by an arbitrary count function. -/
theorem groupCount_keyed (keys : List (String × Nat)) (c : String × Nat → Nat)
    (k : String × Nat) (hnd : keys.Nodup) :
    groupCount (keys.map (fun k2 => (k2, c k2))) k = if k ∈ keys then c k else 0 := by
  induction keys with
  | nil => simp [groupCount]
  | cons k2 rest ih =>
    have hnd2 := List.nodup_cons.mp hnd
    rw [List.map_cons, groupCount_cons, ih hnd2.2]
    by_cases he : k2 = k
    · subst he
      simp [hnd2.1]
    · simp only [List.mem_cons]
      rw [if_neg he]
      have : ¬(k = k2) := fun hc => he hc.symm
      by_cases hkr : k ∈ rest
      · simp [hkr, this]
      · simp [hkr, this]

/-- The requested quantity per key of a removal request equals the number of
request rows carrying that key. -/
theorem groupCount_removalGroups (items : List String) (exps : List (Option Nat))
    (k : String × Nat) :
    groupCount (removalGroups items exps) k = (removalPairs items exps).count k := by
  have h := groupCount_keyed (removalKeys items exps)
      (fun k2 => (removalPairs items exps).count k2) k (nodup_dedupFirst _)
  rw [removalGroups]
  simp only at h ⊢
  rw [h]
  by_cases hk : k ∈ removalKeys items exps
  · simp [hk]
  · rw [if_neg hk]
    have hnm : k ∉ removalPairs items exps :=
      fun h => hk ((mem_dedupFirst _ _).mpr h)
    exact (List.count_eq_zero.mpr hnm).symm

/-- `mark_removed` removes, from the pool of every key, exactly the number of
request rows carrying that key — provided no key requests more than its pool
holds.  Keys not requested (count zero) keep their pools unchanged. -/
theorem countMatching_mark_removed (inv : String) (items : List String)
    (exps : List (Option Nat)) (sig : String) (now : Nat) (t : List SupplyRow)
    (hb : ∀ k ∈ removalKeys items exps,
      (removalPairs items exps).count k ≤ countMatching inv k.1 k.2 t)
    (item : String) (d : Nat) :
    countMatching inv item d (mark_removed inv items exps sig now t)
      = countMatching inv item d t - (removalPairs items exps).count (item, d) := by
  rw [mark_removed,
    countMatching_markGroups inv now sig _ t
      (by rw [map_fst_removalGroups]; exact nodup_dedupFirst _)
      (by
        intro g hg
        obtain ⟨k, hk, rfl⟩ := List.mem_map.mp hg
        exact hb k hk)
      item d,
    groupCount_removalGroups]

/-- The request pairs built from parallel item/expiration projections of a
row list are the rows' own `(item, date)` pairs, dropping unknown dates. -/
theorem removalPairs_map (rows : List AuditRow) :
    removalPairs (rows.map (fun r => r.item)) (rows.map (fun r => r.expirationDate))
      = rows.filterMap (fun r => r.expirationDate.map (fun d => (r.item, d))) := by
  rw [removalPairs, List.zip_map']
  rw [List.filterMap_map]
  rfl

/-- Counting a key among a row list's request pairs counts the rows carrying
exactly that item and expiration date. -/
theorem count_filterMap_pairs (rows : List AuditRow) (item : String) (d : Nat) :
    (rows.filterMap (fun r => r.expirationDate.map (fun d2 => (r.item, d2)))).count (item, d)
      = (rows.filter (fun r => r.item == item && r.expirationDate == some d)).length := by
  induction rows with
  | nil => rfl
  | cons r rest ih =>
    cases he : r.expirationDate with
    | none =>
      have hfm : List.filterMap (fun r2 => Option.map (fun d2 => (r2.item, d2)) r2.expirationDate)
          (r :: rest)
          = List.filterMap (fun r2 => Option.map (fun d2 => (r2.item, d2)) r2.expirationDate)
            rest := by
        rw [List.filterMap_cons]
        simp [he]
      have hfl : List.filter (fun r2 => r2.item == item && r2.expirationDate == some d) (r :: rest)
          = List.filter (fun r2 => r2.item == item && r2.expirationDate == some d) rest := by
        rw [List.filter_cons]
        simp [he]
      rw [hfm, hfl, ih]
    | some d2 =>
      have hfm : List.filterMap (fun r2 => Option.map (fun d2 => (r2.item, d2)) r2.expirationDate)
          (r :: rest)
          = (r.item, d2) :: List.filterMap
              (fun r2 => Option.map (fun d2 => (r2.item, d2)) r2.expirationDate) rest := by
        rw [List.filterMap_cons]
        simp [he]
      rw [hfm, List.count_cons]
      by_cases hmatch : r.item = item ∧ d2 = d
      · obtain ⟨h1, h2⟩ := hmatch
        have hfl : List.filter (fun r2 => r2.item == item && r2.expirationDate == some d)
            (r :: rest)
            = r :: List.filter (fun r2 => r2.item == item && r2.expirationDate == some d)
                rest := by
          rw [List.filter_cons]
          simp [he, h1, h2]
        have hbeq : (((r.item, d2) : String × Nat) == (item, d)) = true := by
          simp [h1, h2]
        rw [hfl, hbeq]
        simp [ih]
      · have hfl : List.filter (fun r2 => r2.item == item && r2.expirationDate == some d)
            (r :: rest)
            = List.filter (fun r2 => r2.item == item && r2.expirationDate == some d) rest := by
          rw [List.filter_cons]
          have hp : (r.item == item && r.expirationDate == some d) = false := by
            simp only [Bool.and_eq_false_iff]
            by_cases h1 : r.item = item
            · right
              simp only [he, beq_eq_false_iff_ne, ne_eq, Option.some.injEq]
              exact fun h2 => hmatch ⟨h1, h2⟩
            · left
              simp [h1]
          simp [hp]
        have hbeq : (((r.item, d2) : String × Nat) == (item, d)) = false := by
          simp only [beq_eq_false_iff_ne, ne_eq, Prod.mk.injEq, not_and]
          exact fun h1 h2 => hmatch ⟨h1, h2⟩
        rw [hfl, hbeq]
        simp [ih]

/-- The per-key request count of the removal issued by `submit_audit` is the
per-key count of missing checked rows. -/
theorem count_removalPairs_missing (locAudits : List (String × List AuditRow))
    (item : String) (d : Nat) :
    (removalPairs ((missingRows locAudits).map (fun r => r.item))
        ((missingRows locAudits).map (fun r => r.expirationDate))).count (item, d)
      = missingCount locAudits item d := by
  rw [removalPairs_map, count_filterMap_pairs, missingCount]

/-- Folding appends over a list equals appending the flattened maps. -/
theorem foldl_append_eq {α β : Type} (f : β → List α) (l : List β) (init : List α) :
    l.foldl (fun acc p => acc ++ f p) init = init ++ (l.map f).flatten := by
  induction l generalizing init with
  | nil => simp
  | cons b rest ih => simp [ih, List.append_assoc]

/-- The audit checklist of the C5 counterexample: a single checked row,
flagged missing, whose expiration date is unknown (a blank sheet cell,
pandas `NaT`, as produced by `process_supplies` and the audit checklist). -/
def locAuditsC5none : List (String × List AuditRow) :=
  [("ShelfA", [⟨"Bandage", none, false⟩])]

/-- The supply table of the C5 counterexample: one active Bandage lot with
unknown expiration date on ShelfA. -/
def supplyC5none : List SupplyRow :=
  [⟨"Kit", "ShelfA", "Bandage", none, 0, "op", none, none⟩]

/-- C5 (counterexample): a checked row with `Present = False` whose
expiration date is unknown appends exactly one `AuditRecord` carrying its
decision, yet causes no removal at all: `mark_removed`'s
`groupby(["Item", "Expiration Date"])` silently drops the null key, so the
supply table — which still holds an active matching Bandage lot — is
returned unchanged, refuting the claim that every `Present = False` checked
row marks exactly one active lot removed. -/
theorem C5_unknown_expiration_counterexample :
    missingRows locAuditsC5none = [⟨"Bandage", none, false⟩] ∧
    (submit_audit "Kit" locAuditsC5none "auditor" 300 [] supplyC5none).1
      = [⟨"Kit", "ShelfA", "Bandage", none, false, 300, "auditor"⟩] ∧
    (submit_audit "Kit" locAuditsC5none "auditor" 300 [] supplyC5none).2 = supplyC5none ∧
    (supplyC5none.filter (fun r => r.dateRemoved == none)).length = 1 := by
  decide

/-- C5 (amended): for a submitted audit in which each missing
`(item, expiration)` key is backed by at least as many active matching lots:
the audit table grows by exactly one record per checked row — in checklist
order, carrying the row's decision, the audit timestamp and the auditor —
the supply-side effect is exactly a `mark_removed` call (the same removal
path the manual remove form uses) built from one request row per
`Present = False` checked row, and for every key `(item, d)` with a known
date, the number of active lots matching `(inventory, item, d)` drops by
exactly the number of `Present = False` checked rows naming that key — so
`Present = True` rows remove nothing and each `Present = False` row with a
known expiration date accounts for exactly one removed lot.  A
`Present = False` row whose expiration date is unknown is outside this
per-key accounting: it appends its audit record but removes nothing, because
the removal groupby drops the null key (see the C5 counterexample). -/
theorem C5_audit_reconciliation (inv sig : String) (now : Nat)
    (locAudits : List (String × List AuditRow)) (auditTable : List AuditRecord)
    (supplyTable : List SupplyRow) (item : String) (d : Nat)
    (hstock : ∀ r ∈ missingRows locAudits,
      missingCount locAudits r.item (r.expirationDate.getD 0)
        ≤ countMatching inv r.item (r.expirationDate.getD 0) supplyTable) :
    (submit_audit inv locAudits sig now auditTable supplyTable).1
      = auditTable ++
        (locAudits.map (fun p => p.2.map (auditRecordOf inv p.1 sig now))).flatten ∧
    (submit_audit inv locAudits sig now auditTable supplyTable).1.length
      = auditTable.length + (checkedRows locAudits).length ∧
    (submit_audit inv locAudits sig now auditTable supplyTable).2
      = mark_removed inv ((missingRows locAudits).map (fun r => r.item))
          ((missingRows locAudits).map (fun r => r.expirationDate)) sig now supplyTable ∧
    countMatching inv item d (submit_audit inv locAudits sig now auditTable supplyTable).2
      = countMatching inv item d supplyTable - missingCount locAudits item d := by
  have h1 : (submit_audit inv locAudits sig now auditTable supplyTable).1
      = auditTable ++
        (locAudits.map (fun p => p.2.map (auditRecordOf inv p.1 sig now))).flatten :=
    foldl_append_eq _ locAudits auditTable
  refine ⟨h1, ?_, rfl, ?_⟩
  · rw [h1, List.length_append, checkedRows]
    congr 1
    rw [List.length_flatten, List.length_flatten, List.map_map, List.map_map]
    congr 1
    refine List.map_congr_left ?_
    intro p _
    simp
  · have hb : ∀ k ∈ removalKeys ((missingRows locAudits).map (fun r => r.item))
        ((missingRows locAudits).map (fun r => r.expirationDate)),
        (removalPairs ((missingRows locAudits).map (fun r => r.item))
          ((missingRows locAudits).map (fun r => r.expirationDate))).count k
          ≤ countMatching inv k.1 k.2 supplyTable := by
      intro k hk
      have hk2 : k ∈ removalPairs ((missingRows locAudits).map (fun r => r.item))
          ((missingRows locAudits).map (fun r => r.expirationDate)) :=
        (mem_dedupFirst _ _).mp hk
      rw [removalPairs_map] at hk2
      obtain ⟨r, hr, hre⟩ := List.mem_filterMap.mp hk2
      obtain ⟨d2, hd2, hpair⟩ := Option.map_eq_some'.mp hre
      subst hpair
      rw [count_removalPairs_missing]
      have hs := hstock r hr
      rw [hd2] at hs
      simpa using hs
    rw [show (submit_audit inv locAudits sig now auditTable supplyTable).2
        = mark_removed inv ((missingRows locAudits).map (fun r => r.item))
          ((missingRows locAudits).map (fun r => r.expirationDate)) sig now supplyTable
      from rfl]
    rw [countMatching_mark_removed inv _ _ sig now supplyTable hb item d,
      count_removalPairs_missing]

/-- The audit checklist of the C5 witness: one missing Bandage lot and one
present Gauze lot on ShelfA. -/
def locAuditsC5 : List (String × List AuditRow) :=
  [("ShelfA", [⟨"Bandage", some 31, false⟩, ⟨"Gauze", some 59, true⟩])]

/-- The supply table of the C5 witness. -/
def supplyC5 : List SupplyRow :=
  [⟨"Kit", "ShelfA", "Bandage", some 31, 0, "op", none, none⟩,
   ⟨"Kit", "ShelfA", "Gauze", some 59, 0, "op", none, none⟩]

/-- C5 (witness): the audit reconciliation contract applied to a concrete
two-row checklist with one missing lot. -/
theorem C5_audit_reconciliation_witness :
    (submit_audit "Kit" locAuditsC5 "auditor" 300 [] supplyC5).1
      = [] ++
        (locAuditsC5.map (fun p => p.2.map (auditRecordOf "Kit" p.1 "auditor" 300))).flatten ∧
    (submit_audit "Kit" locAuditsC5 "auditor" 300 [] supplyC5).1.length
      = ([] : List AuditRecord).length + (checkedRows locAuditsC5).length ∧
    (submit_audit "Kit" locAuditsC5 "auditor" 300 [] supplyC5).2
      = mark_removed "Kit" ((missingRows locAuditsC5).map (fun r => r.item))
          ((missingRows locAuditsC5).map (fun r => r.expirationDate)) "auditor" 300 supplyC5 ∧
    countMatching "Kit" "Bandage" 31
        (submit_audit "Kit" locAuditsC5 "auditor" 300 [] supplyC5).2
      = countMatching "Kit" "Bandage" 31 supplyC5 - missingCount locAuditsC5 "Bandage" 31 :=
  C5_audit_reconciliation "Kit" "auditor" 300 locAuditsC5 [] supplyC5 "Bandage" 31 (by decide)

/-! ### Frame lemmas for `mark_removed` (C9) -/

/-- The per-row effect of `mark_removed`: either the row is returned exactly
as it was, or it was an active row matching one of the request keys and the
output row is the input row with only `Date Removed` / `Removed By` set. -/
def UntouchedOrMarked (inv : String) (keys : List (String × Nat)) (now : Nat)
    (sig : String) (r s : SupplyRow) : Prop :=
  s = r ∨ (r.dateRemoved = none ∧ (∃ k ∈ keys, rowMatches inv k.1 k.2 r = true) ∧
    s = markRow now sig r)

/-- `UntouchedOrMarked` is monotone in the key list. -/
theorem untouchedOrMarked_mono {inv : String} {keys1 keys2 : List (String × Nat)}
    {now : Nat} {sig : String} {r s : SupplyRow}
    (hsub : ∀ k ∈ keys1, k ∈ keys2) (h : UntouchedOrMarked inv keys1 now sig r s) :
    UntouchedOrMarked inv keys2 now sig r s := by
  rcases h with h | ⟨ha, ⟨k, hk, hm⟩, hs⟩
  · exact Or.inl h
  · exact Or.inr ⟨ha, ⟨k, hsub k hk, hm⟩, hs⟩

/-- One `mark_removed` group iteration relates every row to its output row. -/
theorem forall₂_markFirstMatching (inv item : String) (d quant now : Nat) (sig : String)
    (t : List SupplyRow) :
    List.Forall₂ (UntouchedOrMarked inv [(item, d)] now sig) t
      (markFirstMatching inv item d quant now sig t) := by
  induction t generalizing quant with
  | nil => exact List.Forall₂.nil
  | cons r rest ih =>
    simp only [markFirstMatching]
    split
    · rename_i hguard
      refine List.Forall₂.cons ?_ (ih _)
      have hm : rowMatches inv item d r = true := by
        simp only [Bool.and_eq_true] at hguard
        exact hguard.2
      exact Or.inr ⟨rowMatches_active hm, ⟨(item, d), List.mem_singleton_self _, hm⟩, rfl⟩
    · exact List.Forall₂.cons (Or.inl rfl) (ih _)

/-- Composing two `Forall₂` relations along a middle list. -/
theorem forall₂_comp {α : Type} {R S T : α → α → Prop} {l1 l2 l3 : List α}
    (h1 : List.Forall₂ R l1 l2) (h2 : List.Forall₂ S l2 l3)
    (hcomp : ∀ a b c, R a b → S b c → T a c) : List.Forall₂ T l1 l3 := by
  induction h1 generalizing l3 with
  | nil =>
    cases h2
    exact List.Forall₂.nil
  | cons hr hrest ih =>
    cases h2 with
    | cons hs hsrest => exact List.Forall₂.cons (hcomp _ _ _ hr hs) (ih hsrest)

/-- Two successive per-row outcomes compose: a marked row is never touched
again (it is no longer active), so the keys just accumulate. -/
theorem untouchedOrMarked_comp {inv : String} {keys1 keys2 : List (String × Nat)}
    {now : Nat} {sig : String} (r s u : SupplyRow)
    (h1 : UntouchedOrMarked inv keys1 now sig r s)
    (h2 : UntouchedOrMarked inv keys2 now sig s u) :
    UntouchedOrMarked inv (keys1 ++ keys2) now sig r u := by
  rcases h1 with rfl | ⟨ha, ⟨k, hk, hm⟩, rfl⟩
  · exact untouchedOrMarked_mono (fun k hk => List.mem_append_right _ hk) h2
  · rcases h2 with rfl | ⟨ha2, _, _⟩
    · exact Or.inr ⟨ha, ⟨k, List.mem_append_left _ hk, hm⟩, rfl⟩
    · exfalso
      simp [markRow] at ha2

/-- The group loop of `mark_removed` relates every row to its output row,
with the keys drawn from the group list. -/
theorem forall₂_markGroups (inv : String) (now : Nat) (sig : String)
    (groups : List ((String × Nat) × Nat)) (t : List SupplyRow) :
    List.Forall₂ (UntouchedOrMarked inv (groups.map Prod.fst) now sig) t
      (markGroups inv now sig groups t) := by
  induction groups generalizing t with
  | nil =>
    simp only [markGroups, List.foldl_nil]
    exact List.forall₂_same.mpr (fun x _ => Or.inl rfl)
  | cons g gs ih =>
    simp only [markGroups, List.foldl_cons, List.map_cons]
    have h1 := forall₂_markFirstMatching inv g.1.1 g.1.2 g.2 now sig t
    have h2 := ih (markFirstMatching inv g.1.1 g.1.2 g.2 now sig t)
    refine forall₂_comp h1 h2 ?_
    intro a b c hab hbc
    have hc := untouchedOrMarked_comp a b c hab hbc
    exact untouchedOrMarked_mono (by intro k hk; simpa using hk) hc

/-- C9: `mark_removed` never deletes rows (same length, same order); every
output row is either exactly its input row, or its input row was active
(`Date Removed` blank — so an already-removed lot is never selected or
re-marked) and matched one of the requested `(item, expiration)` keys for the
requested inventory, and the output row is the input row with only
`Date Removed` and `Removed By` set (`markRow` changes no other field); the
request keys are exactly the request rows carrying an expiration date. -/
theorem C9_removal_frame (inv : String) (items : List String) (exps : List (Option Nat))
    (sig : String) (now : Nat) (t : List SupplyRow) :
    (mark_removed inv items exps sig now t).length = t.length ∧
    List.Forall₂ (UntouchedOrMarked inv (removalKeys items exps) now sig) t
      (mark_removed inv items exps sig now t) ∧
    (∀ k : String × Nat, k ∈ removalKeys items exps ↔ (k.1, some k.2) ∈ items.zip exps) ∧
    (∀ r : SupplyRow, (markRow now sig r).inventory = r.inventory ∧
      (markRow now sig r).location = r.location ∧ (markRow now sig r).item = r.item ∧
      (markRow now sig r).expirationDate = r.expirationDate ∧
      (markRow now sig r).dateAdded = r.dateAdded ∧
      (markRow now sig r).addedBy = r.addedBy ∧
      (markRow now sig r).dateRemoved = some now ∧
      (markRow now sig r).removedBy = some sig) := by
  have hf : List.Forall₂ (UntouchedOrMarked inv (removalKeys items exps) now sig) t
      (mark_removed inv items exps sig now t) := by
    have h := forall₂_markGroups inv now sig (removalGroups items exps) t
    rw [map_fst_removalGroups] at h
    exact h
  refine ⟨hf.length_eq.symm, hf, ?_, ?_⟩
  · intro k
    rw [removalKeys, mem_dedupFirst]
    constructor
    · intro h
      obtain ⟨p, hp, hpe⟩ := List.mem_filterMap.mp h
      obtain ⟨d2, hd2, hpair⟩ := Option.map_eq_some'.mp hpe
      have hpk : p = (k.1, some k.2) := by
        have h1 : p.1 = k.1 := by rw [← hpair]
        have h2 : d2 = k.2 := by rw [← hpair]
        rw [Prod.ext_iff]
        exact ⟨h1, by rw [hd2, h2]⟩
      rw [← hpk]
      exact hp
    · intro h
      exact List.mem_filterMap.mpr ⟨(k.1, some k.2), h, rfl⟩
  · intro r
    exact ⟨rfl, rfl, rfl, rfl, rfl, rfl, rfl, rfl⟩
